import Mathlib

/-!
Verification of the smc-trading-bot repository's specification.

The repository's dashboards (`src/app.py`, `src/.devcontainer/app.py`)
delegate pattern detection to a third-party library; the spec's core —
the hand-written order-block detector `detect` — is code of the
repository not present under `src/`, so it is modelled from the spec.
`run_smc_analysis` is embedded from `src/app.py` directly.

Prices are modelled as rationals so every comparison is decidable and
executable.
-/

/-! ## Data model and operations -/

/-- One OHLC observation for a fixed time step (spec §3 "Bar"). -/
structure Bar where
  timestamp : Int
  «open» : Rat
  high : Rat
  low : Rat
  close : Rat
deriving DecidableEq, Repr

/-- A detection result (spec §3 "OrderBlockZone"). -/
structure OrderBlockZone where
  anchor_time : Int
  low : Rat
  high : Rat
deriving DecidableEq, Repr

/-- Failure modes of the detector (spec §7). -/
inductive DetectError where
  | InvalidArgument
deriving DecidableEq, Repr

/-- Modelled from the spec: `up_move[j] = close[j] > close[j-1]`
(spec §4.1 algorithm step 1); false at index 0 (no predecessor) and
out of range.  The hand-written detector is missing from `src/`. -/
def up_move (series : List Bar) (j : Nat) : Bool :=
  match series[j]?, series[j - 1]? with
  | some bj, some bp => decide (1 ≤ j) && decide (bp.close < bj.close)
  | _, _ => false

/-- Modelled from the spec: `down_candle[i] = close[i] < open[i]`
(spec §4.1 algorithm step 2). -/
def down_candle (series : List Bar) (i : Nat) : Bool :=
  match series[i]? with
  | some b => decide (b.close < b.«open»)
  | none => false

/-- Modelled from the spec: the confirmation run — `up_move[j]` for every
`j` in `[i+1, i+lookback]` (spec §4.1 algorithm step 3, second bullet). -/
def confirmed (series : List Bar) (lookback i : Nat) : Bool :=
  (List.range lookback).all fun k => up_move series (i + 1 + k)

/-- Modelled from the spec: anchor index `i` qualifies as an order block —
`1 ≤ i ≤ len - lookback - 1`, a down-candle, and a full confirmation run
(spec §4.1 algorithm step 3). -/
def isAnchor (series : List Bar) (lookback i : Nat) : Bool :=
  decide (1 ≤ i) && decide (i + lookback + 1 ≤ series.length) &&
    down_candle series i && confirmed series lookback i

/-- Modelled from the spec: the zone emitted for a qualifying anchor bar
(spec §4.1 algorithm step 4). -/
def mkZone (b : Bar) : OrderBlockZone :=
  { anchor_time := b.timestamp, low := b.low, high := b.high }

/-- Modelled from the spec: the zone (if any) emitted at scan index `i` —
`some` zone exactly when `i` is a qualifying anchor (spec §4.1 steps 3-4). -/
def anchorZone (series : List Bar) (lookback i : Nat) : Option OrderBlockZone :=
  match series[i]? with
  | some b => if isAnchor series lookback i then some (mkZone b) else none
  | none => none

/-- Modelled from the spec: the order-block detector
`detect(series, lookback)` (spec §4.1), absent from `src/`.  Rejects
`lookback < 1` with `InvalidArgument`; otherwise a single forward scan
emitting a zone for every qualifying anchor, in scan order. -/
def detect (series : List Bar) (lookback : Int) :
    Except DetectError (List OrderBlockZone) :=
  if lookback < 1 then
    .error .InvalidArgument
  else
    .ok <| (List.range series.length).filterMap (anchorZone series lookback.toNat)

/-- Models the call boundary of `detect`: the returned value paired with
the input bar sequence as observable after the call.  The detector reads
the bars and allocates its own flag arrays; it never writes to its input
(spec §4.1 side effects, §5). -/
def detectRun (series : List Bar) (lookback : Int) :
    Except DetectError (List OrderBlockZone) × List Bar :=
  (detect series lookback, series)

/-- A concrete five-bar series used by the witnesses: closes
`10, 9, 12, 8, 15` and opens `10, 10, 9, 9, 8`, so down-candles at
indices 1 and 3 and up-moves at indices 2 and 4. -/
def wSeries : List Bar :=
  [⟨0, 10, 11, 9, 10⟩, ⟨1, 10, 10, 8, 9⟩, ⟨2, 9, 13, 9, 12⟩,
   ⟨3, 9, 9, 7, 8⟩, ⟨4, 8, 16, 8, 15⟩]

/-- A concrete series for witnesses of the strict-comparison rules:
bar 1 is a down-candle, bar 2 closes flat against bar 1, and bar 3 is a
doji. -/
def wFlat : List Bar :=
  [⟨0, 10, 10, 10, 10⟩, ⟨1, 10, 10, 8, 9⟩, ⟨2, 9, 9, 9, 9⟩, ⟨3, 9, 9, 9, 9⟩]

/-- Minimal model of a pandas dataframe as the dashboard observes it:
its column labels and its row count.  `isEmpty` models `df.empty`
(true when either axis has length zero). -/
structure DataFrame where
  columns : List String
  rows : Nat
deriving DecidableEq, Repr

def DataFrame.isEmpty (df : DataFrame) : Bool :=
  df.rows == 0 || df.columns.isEmpty

/-- Embeds `run_smc_analysis` from `src/app.py` (lines 74-97).  The three
library calls `smc.highs_lows`, `smc.ob`, `smc.fvg` are black-box
collaborators that may raise, modelled as `Except`-valued parameters;
`'highslows' in df.columns` guards the order-block call.  The `except`
branch returns the current binding of `df`, which the `try` body rebinds
after each successful call, so on a failure the value returned is the
dataframe produced by the last successful step.  The result is
`Except`-valued so an uncaught exception would surface as `.error`. -/
def run_smc_analysis
    (highs_lows ob fvg : DataFrame → Except String DataFrame)
    (df : DataFrame) : Except String DataFrame :=
  if df.isEmpty then .ok df
  else
    match highs_lows df with
    | .error _ => .ok df
    | .ok df1 =>
      match (if "highslows" ∈ df1.columns then ob df1 else .ok df1) with
      | .error _ => .ok df1
      | .ok df2 =>
        match fvg df2 with
        | .error _ => .ok df2
        | .ok df3 => .ok df3

/-! ## Characterization lemmas -/

theorem up_move_iff (series : List Bar) (j : Nat) :
    up_move series j = true ↔
      1 ≤ j ∧ ∃ bj bp, series[j]? = some bj ∧ series[j - 1]? = some bp ∧
        bp.close < bj.close := by
  unfold up_move
  cases hj : series[j]? with
  | none => simp
  | some bj =>
    cases hp : series[j - 1]? with
    | none => simp
    | some bp => simp [and_comm]

theorem down_candle_iff (series : List Bar) (i : Nat) :
    down_candle series i = true ↔
      ∃ b, series[i]? = some b ∧ b.close < b.«open» := by
  unfold down_candle
  cases hb : series[i]? with
  | none => simp
  | some b => simp

theorem confirmed_iff (series : List Bar) (lb i : Nat) :
    confirmed series lb i = true ↔
      ∀ j, i + 1 ≤ j → j ≤ i + lb → up_move series j = true := by
  unfold confirmed
  rw [List.all_eq_true]
  constructor
  · intro h j h1 h2
    have hk : j - (i + 1) < lb := by omega
    have hmem := h (j - (i + 1)) (List.mem_range.mpr hk)
    have hj : i + 1 + (j - (i + 1)) = j := by omega
    rwa [hj] at hmem
  · intro h k hk
    exact h (i + 1 + k) (by omega) (by have := List.mem_range.mp hk; omega)

theorem isAnchor_iff (series : List Bar) (lb i : Nat) :
    isAnchor series lb i = true ↔
      1 ≤ i ∧ i + lb + 1 ≤ series.length ∧ down_candle series i = true ∧
        confirmed series lb i = true := by
  simp [isAnchor, Bool.and_eq_true, and_assoc]

theorem anchorZone_eq_some (series : List Bar) (lb i : Nat)
    (z : OrderBlockZone) :
    anchorZone series lb i = some z ↔
      ∃ b, series[i]? = some b ∧ isAnchor series lb i = true ∧ z = mkZone b := by
  unfold anchorZone
  cases hb : series[i]? with
  | none => simp
  | some b =>
    cases ha : isAnchor series lb i with
    | false => simp [ha]
    | true => simp [ha, eq_comm]

theorem mem_detect_iff (series : List Bar) (lookback : Int)
    (h : ¬ lookback < 1) (zs : List OrderBlockZone)
    (hz : detect series lookback = .ok zs) (z : OrderBlockZone) :
    z ∈ zs ↔ ∃ i b, series[i]? = some b ∧
      isAnchor series lookback.toNat i = true ∧ z = mkZone b := by
  unfold detect at hz
  rw [if_neg h] at hz
  injection hz with hz
  subst hz
  rw [List.mem_filterMap]
  constructor
  · rintro ⟨i, hi, hfi⟩
    obtain ⟨b, hb, ha, hzb⟩ := (anchorZone_eq_some series lookback.toNat i z).mp hfi
    exact ⟨i, b, hb, ha, hzb⟩
  · rintro ⟨i, b, hb, ha, hzb⟩
    refine ⟨i, List.mem_range.mpr (List.getElem?_eq_some_iff.mp hb).1, ?_⟩
    exact (anchorZone_eq_some series lookback.toNat i z).mpr ⟨b, hb, ha, hzb⟩

theorem length_filterMap_eq_length_filter {α β : Type} (f : α → Option β)
    (p : α → Bool) (l : List α) (h : ∀ a ∈ l, (f a).isSome = p a) :
    (l.filterMap f).length = (l.filter p).length := by
  induction l with
  | nil => rfl
  | cons a l ih =>
    have ha : (f a).isSome = p a := h a (by simp)
    have hl : ∀ x ∈ l, (f x).isSome = p x := fun x hx => h x (by simp [hx])
    rw [List.filterMap_cons, List.filter_cons]
    cases hfa : f a with
    | none =>
      rw [hfa] at ha
      simp only [Option.isSome_none] at ha
      rw [if_neg (by rw [← ha]; simp)]
      exact ih hl
    | some b =>
      rw [hfa] at ha
      simp only [Option.isSome_some] at ha
      rw [if_pos (by rw [← ha])]
      simp [ih hl]

theorem anchorZone_isSome (series : List Bar) (lb i : Nat)
    (hi : i < series.length) :
    (anchorZone series lb i).isSome = isAnchor series lb i := by
  unfold anchorZone
  cases hb : series[i]? with
  | none =>
    exact absurd hb (by simp [List.getElem?_eq_getElem hi])
  | some b =>
    cases ha : isAnchor series lb i <;> simp [ha]

/-! ## Claims -/

/-- C1: with `lookback ≥ 1`, `detect` returns a zone for index `i` iff
`1 ≤ i ≤ len - lookback - 1`, bar `i` is a down-candle
(`close[i] < open[i]`), and every `j` in `[i+1, i+lookback]` is an
up-move (`close[j] > close[j-1]`); the zone carries the anchor bar's
timestamp, low and high. -/
theorem detect_zone_characterization (series : List Bar) (lookback : Int)
    (hlb : 1 ≤ lookback) (zs : List OrderBlockZone)
    (hz : detect series lookback = .ok zs) (z : OrderBlockZone) :
    z ∈ zs ↔ ∃ i b, series[i]? = some b ∧
      1 ≤ i ∧ i + lookback.toNat + 1 ≤ series.length ∧
      b.close < b.«open» ∧
      (∀ j, i + 1 ≤ j → j ≤ i + lookback.toNat →
        ∃ bj bp, series[j]? = some bj ∧ series[j - 1]? = some bp ∧
          bp.close < bj.close) ∧
      z.anchor_time = b.timestamp ∧ z.low = b.low ∧ z.high = b.high := by
  rw [mem_detect_iff series lookback (by omega) zs hz z]
  constructor
  · rintro ⟨i, b, hb, ha, rfl⟩
    obtain ⟨h1, h2, hdc, hcf⟩ := (isAnchor_iff series lookback.toNat i).mp ha
    obtain ⟨b', hb', hlt⟩ := (down_candle_iff series i).mp hdc
    rw [hb] at hb'
    injection hb' with hb'
    subst hb'
    refine ⟨i, b, hb, h1, h2, hlt, ?_, rfl, rfl, rfl⟩
    intro j hj1 hj2
    have hu := (confirmed_iff series lookback.toNat i).mp hcf j hj1 hj2
    obtain ⟨-, bj, bp, h3, h4, h5⟩ := (up_move_iff series j).mp hu
    exact ⟨bj, bp, h3, h4, h5⟩
  · rintro ⟨i, b, hb, h1, h2, hdo, hcf, ht, hl, hh⟩
    refine ⟨i, b, hb, ?_, ?_⟩
    · rw [isAnchor_iff]
      refine ⟨h1, h2, (down_candle_iff series i).mpr ⟨b, hb, hdo⟩, ?_⟩
      rw [confirmed_iff]
      intro j hj1 hj2
      obtain ⟨bj, bp, h3, h4, h5⟩ := hcf j hj1 hj2
      exact (up_move_iff series j).mpr ⟨by omega, bj, bp, h3, h4, h5⟩
    · cases z
      simp only [mkZone] at ht hl hh ⊢
      simp [ht, hl, hh]

/-- Witness for C1 at `wSeries` with `lookback = 1`: the zone anchored at
index 1 is in the output, so the characterization produces the anchor. -/
theorem detect_zone_characterization_witness :
    ∃ i b, wSeries[i]? = some b ∧
      1 ≤ i ∧ i + (1 : Int).toNat + 1 ≤ wSeries.length ∧
      b.close < b.«open» ∧
      (∀ j, i + 1 ≤ j → j ≤ i + (1 : Int).toNat →
        ∃ bj bp, wSeries[j]? = some bj ∧ wSeries[j - 1]? = some bp ∧
          bp.close < bj.close) ∧
      (⟨1, 8, 10⟩ : OrderBlockZone).anchor_time = b.timestamp ∧
      (⟨1, 8, 10⟩ : OrderBlockZone).low = b.low ∧
      (⟨1, 8, 10⟩ : OrderBlockZone).high = b.high :=
  (detect_zone_characterization wSeries 1 (by decide) [⟨1, 8, 10⟩, ⟨3, 7, 9⟩]
    (by rfl) ⟨1, 8, 10⟩).mp (by decide)

/-- C2: for `lookback ≥ 1` and a series with fewer than `lookback + 2`
bars, `detect` succeeds with the empty sequence. -/
theorem detect_short_series (series : List Bar) (lookback : Int)
    (h1 : 1 ≤ lookback) (h2 : series.length < lookback.toNat + 2) :
    detect series lookback = .ok [] := by
  unfold detect
  rw [if_neg (by omega)]
  congr 1
  rw [List.filterMap_eq_nil_iff]
  intro i hi
  unfold anchorZone
  cases hb : series[i]? with
  | none => rfl
  | some b =>
    have ha : isAnchor series lookback.toNat i = false := by
      rw [← Bool.not_eq_true, isAnchor_iff]
      rintro ⟨hge, hlen, -, -⟩
      omega
    rw [ha]
    rfl

/-- Witness for C2: a three-bar series with `lookback = 3`. -/
theorem detect_short_series_witness :
    detect [⟨0, 1, 1, 1, 1⟩, ⟨1, 2, 2, 2, 1⟩, ⟨2, 3, 3, 3, 2⟩] 3 = .ok [] :=
  detect_short_series [⟨0, 1, 1, 1, 1⟩, ⟨1, 2, 2, 2, 1⟩, ⟨2, 3, 3, 3, 2⟩] 3
    (by decide) (by decide)

/-- C3: `detect` fails with `InvalidArgument` iff `lookback < 1`; for
`lookback ≥ 1` it always completes with some zone list, whatever the
bars contain. -/
theorem detect_invalid_argument (series : List Bar) (lookback : Int) :
    (detect series lookback = .error .InvalidArgument ↔ lookback < 1) ∧
      (1 ≤ lookback → ∃ zs, detect series lookback = .ok zs) := by
  unfold detect
  by_cases h : lookback < 1
  · rw [if_pos h]
    exact ⟨⟨fun _ => h, fun _ => rfl⟩, fun hc => absurd h (by omega)⟩
  · rw [if_neg h]
    exact ⟨⟨fun hc => absurd hc (by simp), fun hc => absurd hc h⟩,
      fun _ => ⟨_, rfl⟩⟩

/-- Witness for C3: `lookback = -5` is rejected, `lookback = 1` succeeds,
on a series containing a bar with `high < low`. -/
theorem detect_invalid_argument_witness :
    detect [⟨0, 10, 10, 10, 10⟩, ⟨1, 10, 12, 13, 9⟩, ⟨2, 9, 10, 9, 10⟩] (-5) =
        .error .InvalidArgument ∧
      ∃ zs, detect [⟨0, 10, 10, 10, 10⟩, ⟨1, 10, 12, 13, 9⟩, ⟨2, 9, 10, 9, 10⟩] 1 =
        .ok zs :=
  ⟨(detect_invalid_argument _ (-5)).1.mpr (by decide),
    (detect_invalid_argument _ 1).2 (by decide)⟩

/-- C4: when the series' timestamps are strictly increasing, the zones
come out in strictly increasing `anchor_time` order (scan order), and the
output has exactly one zone per qualifying anchor index — nothing is
deduplicated, merged or suppressed. -/
theorem detect_sorted_complete (series : List Bar) (lookback : Int)
    (hts : series.Pairwise fun a b => a.timestamp < b.timestamp)
    (zs : List OrderBlockZone) (hz : detect series lookback = .ok zs) :
    zs.Pairwise (fun z1 z2 => z1.anchor_time < z2.anchor_time) ∧
      zs.length = ((List.range series.length).filter
        (fun i => isAnchor series lookback.toNat i)).length := by
  by_cases h : lookback < 1
  · unfold detect at hz
    rw [if_pos h] at hz
    exact absurd hz (by simp)
  have hz' := hz
  unfold detect at hz'
  rw [if_neg h] at hz'
  injection hz' with hz'
  subst hz'
  constructor
  · rw [List.pairwise_filterMap]
    refine (List.pairwise_lt_range series.length).imp_of_mem ?_
    intro i i' hi hi' hlt z hzi z' hzi'
    obtain ⟨b, hb, -, rfl⟩ :=
      (anchorZone_eq_some series lookback.toNat i z).mp hzi
    obtain ⟨b', hb', -, rfl⟩ :=
      (anchorZone_eq_some series lookback.toNat i' z').mp hzi'
    obtain ⟨hbi, hbe⟩ := List.getElem?_eq_some_iff.mp hb
    obtain ⟨hbi', hbe'⟩ := List.getElem?_eq_some_iff.mp hb'
    have := List.pairwise_iff_getElem.mp hts i i' hbi hbi' hlt
    rw [hbe, hbe'] at this
    exact this
  · exact length_filterMap_eq_length_filter _ _ _
      fun i hi => anchorZone_isSome series lookback.toNat i (List.mem_range.mp hi)

/-- Witness for C4 at `wSeries` with `lookback = 1`: two zones, strictly
increasing anchor times, matching the two qualifying anchors. -/
theorem detect_sorted_complete_witness :
    ([⟨1, 8, 10⟩, ⟨3, 7, 9⟩] : List OrderBlockZone).Pairwise
        (fun z1 z2 => z1.anchor_time < z2.anchor_time) ∧
      ([⟨1, 8, 10⟩, ⟨3, 7, 9⟩] : List OrderBlockZone).length =
        ((List.range wSeries.length).filter
          (fun i => isAnchor wSeries (1 : Int).toNat i)).length :=
  detect_sorted_complete wSeries 1 (by decide) [⟨1, 8, 10⟩, ⟨3, 7, 9⟩] (by rfl)

/-- C5: comparisons are strict.  A flat close (`close[j] = close[j-1]`)
is not an up-move and disqualifies every anchor whose confirmation run
includes `j`; a doji (`close[i] = open[i]`) is not a down-candle and so
index `i` never qualifies as an anchor. -/
theorem strict_comparisons (series : List Bar) (lb : Nat) :
    (∀ j bj bp, series[j]? = some bj → series[j - 1]? = some bp →
      bj.close = bp.close →
        up_move series j = false ∧
          ∀ i, i + 1 ≤ j → j ≤ i + lb → isAnchor series lb i = false) ∧
    (∀ i b, series[i]? = some b → b.close = b.«open» →
      down_candle series i = false ∧ isAnchor series lb i = false) := by
  constructor
  · intro j bj bp hbj hbp heq
    have hu : up_move series j = false := by
      rw [← Bool.not_eq_true, up_move_iff]
      rintro ⟨-, bj', bp', hbj', hbp', hlt⟩
      rw [hbj] at hbj'
      rw [hbp] at hbp'
      injection hbj' with hbj'
      injection hbp' with hbp'
      subst hbj'
      subst hbp'
      rw [heq] at hlt
      exact lt_irrefl _ hlt
    refine ⟨hu, ?_⟩
    intro i hi1 hi2
    rw [← Bool.not_eq_true, isAnchor_iff]
    rintro ⟨-, -, -, hcf⟩
    have := (confirmed_iff series lb i).mp hcf j hi1 hi2
    rw [hu] at this
    exact Bool.false_ne_true this
  · intro i b hb heq
    have hd : down_candle series i = false := by
      rw [← Bool.not_eq_true, down_candle_iff]
      rintro ⟨b', hb', hlt⟩
      rw [hb] at hb'
      injection hb' with hb'
      subst hb'
      rw [heq] at hlt
      exact lt_irrefl _ hlt
    refine ⟨hd, ?_⟩
    rw [← Bool.not_eq_true, isAnchor_iff]
    rintro ⟨-, -, hdc, -⟩
    rw [hd] at hdc
    exact Bool.false_ne_true hdc

/-- Witness for C5 at `wFlat`: the flat close at index 2 is not an
up-move and disqualifies anchor 1; the doji at index 3 is not a
down-candle and is no anchor. -/
theorem strict_comparisons_witness :
    (up_move wFlat 2 = false ∧ isAnchor wFlat 1 1 = false) ∧
      (down_candle wFlat 3 = false ∧ isAnchor wFlat 1 3 = false) :=
  ⟨⟨((strict_comparisons wFlat 1).1 2 ⟨2, 9, 9, 9, 9⟩ ⟨1, 10, 10, 8, 9⟩
        rfl rfl rfl).1,
      ((strict_comparisons wFlat 1).1 2 ⟨2, 9, 9, 9, 9⟩ ⟨1, 10, 10, 8, 9⟩
        rfl rfl rfl).2 1 (by decide) (by decide)⟩,
    (strict_comparisons wFlat 1).2 3 ⟨3, 9, 9, 9, 9⟩ rfl rfl⟩

/-- C6: `detect` is deterministic — two calls on the same series and
lookback return zone sequences identical by value. -/
theorem detect_deterministic (series : List Bar) (lookback : Int)
    (zs1 zs2 : List OrderBlockZone)
    (h1 : detect series lookback = .ok zs1)
    (h2 : detect series lookback = .ok zs2) : zs1 = zs2 := by
  rw [h1] at h2
  injection h2

/-- Witness for C6 at `wSeries` with `lookback = 1`. -/
theorem detect_deterministic_witness :
    ([⟨1, 8, 10⟩, ⟨3, 7, 9⟩] : List OrderBlockZone) = [⟨1, 8, 10⟩, ⟨3, 7, 9⟩] :=
  detect_deterministic wSeries 1 _ _ (by rfl) (by rfl)

/-- C7: if every input bar has `low ≤ high` then every returned zone has
`low ≤ high`; bar values are not validated, and on a series whose
anchoring bar has `high < low` the scan completes and returns a zone
with `low > high`. -/
theorem zone_band_invariant :
    (∀ (series : List Bar) (lookback : Int) (zs : List OrderBlockZone),
      (∀ b ∈ series, b.low ≤ b.high) → detect series lookback = .ok zs →
        ∀ z ∈ zs, z.low ≤ z.high) ∧
    (∃ zs : List OrderBlockZone,
      detect [⟨0, 10, 10, 10, 10⟩, ⟨1, 10, 12, 13, 9⟩, ⟨2, 9, 10, 9, 10⟩] 1 =
          .ok zs ∧
        ∃ z ∈ zs, z.high < z.low) := by
  constructor
  · intro series lookback zs hlh hz z hmem
    by_cases h : lookback < 1
    · unfold detect at hz
      rw [if_pos h] at hz
      exact absurd hz (by simp)
    · obtain ⟨i, b, hb, -, rfl⟩ :=
        (mem_detect_iff series lookback h zs hz z).mp hmem
      exact hlh b (List.getElem?_mem hb)
  · exact ⟨[⟨1, 13, 12⟩], by rfl, ⟨1, 13, 12⟩, by decide, by decide⟩

/-- Witness for C7's validated half at `wSeries` with `lookback = 1`. -/
theorem zone_band_invariant_witness :
    ∀ z ∈ ([⟨1, 8, 10⟩, ⟨3, 7, 9⟩] : List OrderBlockZone), z.low ≤ z.high :=
  zone_band_invariant.1 wSeries 1 [⟨1, 8, 10⟩, ⟨3, 7, 9⟩] (by decide) (by rfl)

/-- C8: `detect` is a pure function of its arguments — the bar sequence
observable after the call is the input itself, unchanged, and the value
returned is exactly `detect` of the inputs. -/
theorem detect_pure (series : List Bar) (lookback : Int) :
    (detectRun series lookback).2 = series ∧
      (detectRun series lookback).1 = detect series lookback :=
  ⟨rfl, rfl⟩

/-- C9: on an empty dataframe `run_smc_analysis` returns that dataframe
unchanged, for every choice of the three analysis collaborators — no
analysis step is consulted. -/
theorem run_smc_analysis_empty
    (highs_lows ob fvg : DataFrame → Except String DataFrame)
    (df : DataFrame) (h : df.isEmpty = true) :
    run_smc_analysis highs_lows ob fvg df = .ok df := by
  unfold run_smc_analysis
  rw [if_pos h]

/-- Witness for C9: the empty dataframe with identity collaborators. -/
theorem run_smc_analysis_empty_witness :
    run_smc_analysis (fun d => .ok d) (fun d => .ok d) (fun d => .ok d)
        ⟨[], 0⟩ = .ok ⟨[], 0⟩ :=
  run_smc_analysis_empty _ _ _ ⟨[], 0⟩ (by decide)

/-- C10: `run_smc_analysis` never propagates an exception — whatever the
three analysis collaborators do on whatever dataframe, it returns `.ok`
of some dataframe. -/
theorem run_smc_analysis_total
    (highs_lows ob fvg : DataFrame → Except String DataFrame)
    (df : DataFrame) :
    ∃ r, run_smc_analysis highs_lows ob fvg df = .ok r := by
  unfold run_smc_analysis
  split
  · exact ⟨df, rfl⟩
  · split
    · exact ⟨df, rfl⟩
    · split
      · exact ⟨_, rfl⟩
      · split
        · exact ⟨_, rfl⟩
        · exact ⟨_, rfl⟩
